import Mathlib

/-
Verification of the simulation-and-anomaly-detection core of the
Real-Time-Voting-Transparency-Dashboard repository.

The TypeScript sources under src/src are embedded shallowly:

* JavaScript numbers are idealized as rationals (ℚ); the one genuinely
  irrational operation, Math.sqrt inside calculateZScore, is modelled over ℝ
  with Real.sqrt.  Every comparison the detectors make against a z-score is
  in addition captured by a decidable rational predicate (zAbsGt, zPos) that
  is proved equivalent to the corresponding real comparison, so the
  detectors themselves stay executable.
* JavaScript objects used as dynamic maps (candidateVotes, the distribution
  record) are embedded as insertion-ordered association lists with
  last-write-wins update (objSet), spread-deletion (objDelete) and lookup
  (objGet), matching object key ordering semantics.
* Math.random() draws are made explicit: every function that draws
  randomness takes the drawn values as arguments (structure TickRand for one
  district tick), so theorems quantify over all possible draws.
* Date values are modelled as rational millisecond timestamps.
* The message strings and timestamps stored inside produced Anomaly records
  are presentation-only and omitted from the embedded Anomaly structure, as
  is the raw real-valued zScore payload field; all fields the analysed
  properties depend on (ids, type, severity, rates, deviations) are kept.
* Configuration is taken at its documented defaults (no environment
  overrides): anomaly injection rate 0.05, z-score threshold 2.5.
-/

namespace Voting

/-- JavaScript Math.round on rationals: floor(q + 1/2). -/
def jsRound (q : ℚ) : ℚ := (⌊q + 1 / 2⌋ : ℤ)

/-- JavaScript Array.prototype.slice(s, e): take the first e elements, drop the first s. -/
def jsSlice (l : List ℚ) (s e : ℕ) : List ℚ := (l.take e).drop s

/-- Pair each element of a list with its index, as Array.prototype.forEach and map expose it. -/
def withIdx {α : Type} (l : List α) : List (ℕ × α) := (List.range l.length).zip l

/-- Lookup in a JavaScript-object-as-map: first (unique) entry with the key. -/
def objGet (m : List (String × ℚ)) (k : String) : Option ℚ :=
  (m.find? (fun p => p.1 = k)).map Prod.snd

/-- Assignment obj[k] = v: overwrite an existing key in place, else append the entry. -/
def objSet (m : List (String × ℚ)) (k : String) (v : ℚ) : List (String × ℚ) :=
  if m.any (fun p => p.1 = k) then m.map (fun p => if p.1 = k then (k, v) else p)
  else m ++ [(k, v)]

/-- Spread-deletion of one key, preserving the order of the remaining entries. -/
def objDelete (m : List (String × ℚ)) (k : String) : List (String × ℚ) :=
  m.filter (fun p => p.1 ≠ k)

/-- Sum of the values of a JavaScript object used as a number map. -/
def sumValues (m : List (String × ℚ)) : ℚ := (m.map Prod.snd).sum

/-- Configured anomaly injection rate (config.anomalyDetection.injectionRate default). -/
def injectionRate : ℚ := 1 / 20

/-- Configured z-score threshold (config.anomalyDetection.zScoreThreshold default). -/
def zScoreThreshold : ℚ := 5 / 2

/-- Candidate record from src/src/types (index file part_002). -/
structure Candidate where
  id : String
  name : String
  party : String
  color : String
deriving DecidableEq, Repr

/-- District status values of the TypeScript union in src/src/types. -/
inductive Status where
  | active
  | paused
  | completed
deriving DecidableEq, Repr

/-- District record from src/src/types; lastUpdate is a millisecond timestamp. -/
structure District where
  id : ℤ
  name : String
  registeredVoters : ℚ
  baseVoteRate : ℚ
  votes : ℚ
  candidateVotes : List (String × ℚ)
  voteVelocity : ℚ
  lastUpdate : ℚ
  status : Status
deriving DecidableEq, Repr

/-- Anomaly kinds of the TypeScript union in src/src/types. -/
inductive AnomalyKind where
  | zScore
  | movingAverage
  | turnoutRate
  | voteRate
deriving DecidableEq, Repr

/-- Severity levels of the TypeScript union in src/src/types. -/
inductive Severity where
  | high
  | medium
  | low
deriving DecidableEq, Repr

/-- Anomaly record (see the header comment for the omitted presentation fields). -/
structure Anomaly where
  districtId : ℤ
  districtName : Option String
  type : AnomalyKind
  severity : Severity
  turnoutRate : Option ℚ := none
  voteRate : Option ℚ := none
  expectedRate : Option ℚ := none
  deviation : Option ℚ := none
  movingAverage : Option ℚ := none
deriving DecidableEq, Repr

/-- Chart data point (value only; label and timestamp are presentation-only). -/
structure ChartDataPoint where
  value : ℚ
deriving DecidableEq, Repr

/-- Vote history entry from src/src/types. -/
structure VoteHistoryEntry where
  timestamp : ℚ
  candidateTotals : List (String × ℚ)
  totalVotes : ℚ
  districts : List (ℤ × ℚ)
deriving DecidableEq, Repr

/-- Anomaly types injectable by the generator (src/src/types AnomalyType). -/
inductive AnomalyType where
  | highTurnout
  | suspiciousRate
  | imbalanced
deriving DecidableEq, Repr

/-- Random draws consumed by one district in one updateDistrictVotes tick. -/
structure TickRand where
  anomalyDraw : ℚ
  typeDraw : ℚ
  incDraw : ℚ
  distDraw : ℕ → ℚ
  now : ℚ

/-- generateVoteIncrement of src/src/utils/dataGenerator.ts with its Math.random()
draw r made explicit; every call site uses the default variance 0.3. -/
def generateVoteIncrement (r : ℚ) (baseRate : ℚ) : ℚ :=
  max 1 (jsRound (baseRate * (1 + (r - 1 / 2) * (3 / 10))))

/-- createEmptyCandidateVotes of dataGenerator.ts. -/
def createEmptyCandidateVotes (cands : List Candidate) : List (String × ℚ) :=
  cands.foldl (fun m c => objSet m c.id 0) []

/-- injectAnomaly of dataGenerator.ts: a plain increment for the two rate anomalies,
a whole vote object for the imbalanced one. -/
def injectAnomaly (r : ℚ) (cands : List Candidate) (d : District) :
    AnomalyType → ℚ ⊕ List (String × ℚ)
  | .highTurnout => .inl (generateVoteIncrement r (d.baseVoteRate * 5))
  | .suspiciousRate => .inl (generateVoteIncrement r (d.baseVoteRate * 8))
  | .imbalanced =>
      let firstId := ((cands.head?).map Candidate.id).getD "A"
      .inr (objSet (createEmptyCandidateVotes cands) firstId
        (generateVoteIncrement r (d.baseVoteRate * 3)))

/-- Bernoulli trial of line 122 of dataGenerator.ts: Math.random() < injectionRate. -/
def hasAnomaly (td : TickRand) : Bool := decide (td.anomalyDraw < injectionRate)

/-- Uniform pick among the two injectable kinds (Math.floor(Math.random() * 2)). -/
def drawnAnomalyType (td : TickRand) : AnomalyType :=
  if ⌊td.typeDraw * 2⌋ = 0 then .highTurnout else .suspiciousRate

/-- Vote increment computed for one district in one tick (newVotes in
updateDistrictVotes); an object-valued anomaly result degrades to 0. -/
def tickIncrement (td : TickRand) (cands : List Candidate) (d : District) : ℚ :=
  if hasAnomaly td then
    match injectAnomaly td.incDraw cands d (drawnAnomalyType td) with
    | .inl n => n
    | .inr _ => 0
  else generateVoteIncrement td.incDraw d.baseVoteRate

/-- Raw candidateDistribution build of updateDistrictVotes: every candidate but the
last receives draw * remaining * 0.7 of the remaining share, the last receives
whatever remains. -/
def buildDistribution (draws : ℕ → ℚ) (cands : List Candidate) : List (String × ℚ) :=
  ((withIdx cands).foldl
    (fun st p =>
      if p.1 = cands.length - 1 then (objSet st.1 p.2.id st.2, st.2)
      else
        let portion := draws p.1 * st.2 * (7 / 10)
        (objSet st.1 p.2.id portion, st.2 - portion))
    ([], 1)).1

/-- Normalization step of updateDistrictVotes: divide every share by the total. -/
def normalizeDistribution (m : List (String × ℚ)) : List (String × ℚ) :=
  let total := (m.map Prod.snd).sum
  m.map (fun p => (p.1, p.2 / total))

/-- Normalized candidateDistribution used by one tick. -/
def candidateDistribution (td : TickRand) (cands : List Candidate) : List (String × ℚ) :=
  normalizeDistribution (buildDistribution td.distDraw cands)

/-- Rounded per-candidate share of the tick increment (newCandidateVotes entry). -/
def tickShare (td : TickRand) (cands : List Candidate) (d : District) (cid : String) : ℚ :=
  jsRound (tickIncrement td cands d * ((objGet (candidateDistribution td cands) cid).getD 0))

/-- newCandidateVotes object of updateDistrictVotes. -/
def newCandidateVotes (td : TickRand) (cands : List Candidate) (d : District) :
    List (String × ℚ) :=
  cands.foldl (fun m c => objSet m c.id (tickShare td cands d c.id)) []

/-- Single-district body of updateDistrictVotes (lines 119-192 of dataGenerator.ts).
The try/catch wrapper is dead in the embedding because every operation is total. -/
def updateOne (td : TickRand) (cands : List Candidate) (d : District) : District :=
  let newVotes := tickIncrement td cands d
  let newCV := newCandidateVotes td cands d
  let timeDiff := (td.now - d.lastUpdate) / 1000 / 60
  let voteVelocity := if 0 < timeDiff then newVotes / timeDiff else 0
  let totalVotes := d.votes + newVotes
  let maxVotes := d.registeredVoters * (51 / 50)
  if maxVotes < totalVotes then d
  else
    { d with
      votes := totalVotes
      candidateVotes := cands.foldl
        (fun m c => objSet m c.id (((objGet m c.id).getD 0) + ((objGet newCV c.id).getD 0)))
        d.candidateVotes
      voteVelocity := voteVelocity
      lastUpdate := td.now }

/-- updateDistrictVotes: map updateOne over the district list, one fresh set of
random draws per district. -/
def updateDistrictVotes (rand : ℕ → TickRand) (cands : List Candidate) :
    List District → List District
  | [] => []
  | d :: rest => updateOne (rand 0) cands d :: updateDistrictVotes (fun i => rand (i + 1)) cands rest

/-- Default CANDIDATES list of dataGenerator.ts. -/
def defaultCandidates : List Candidate :=
  [⟨"A", "Candidate A", "Blue Party", "#3b82f6"⟩,
   ⟨"B", "Candidate B", "Red Party", "#ef4444"⟩,
   ⟨"C", "Candidate C", "Green Party", "#10b981"⟩]

/-- Static per-district base data of dataGenerator.ts. -/
structure BaseDistrict where
  id : ℤ
  name : String
  registeredVoters : ℚ
  baseVoteRate : ℚ
deriving DecidableEq, Repr

/-- DISTRICTS constant of dataGenerator.ts. -/
def baseDistricts : List BaseDistrict :=
  [⟨1, "District 1 - Downtown", 45000, 120⟩,
   ⟨2, "District 2 - Northside", 38000, 95⟩,
   ⟨3, "District 3 - Eastville", 52000, 140⟩,
   ⟨4, "District 4 - Westport", 41000, 105⟩,
   ⟨5, "District 5 - Southend", 35000, 88⟩,
   ⟨6, "District 6 - Central", 47000, 125⟩,
   ⟨7, "District 7 - Riverside", 29000, 75⟩,
   ⟨8, "District 8 - Hilltop", 33000, 85⟩]

/-- initializeDistrictData of dataGenerator.ts, with the initialization instant t0
and the current candidate registry passed explicitly. -/
def initializeDistrictData (t0 : ℚ) (cands : List Candidate) : List District :=
  baseDistricts.map (fun b =>
    { id := b.id
      name := b.name
      registeredVoters := b.registeredVoters
      baseVoteRate := b.baseVoteRate
      votes := 0
      candidateVotes := createEmptyCandidateVotes cands
      voteVelocity := 0
      lastUpdate := t0
      status := .active })

/-- Mean of a population as calculateZScore computes it (empty list gives 0 in ℚ). -/
def listMean (data : List ℚ) : ℚ := data.sum / data.length

/-- Population variance as calculateZScore computes it. -/
def listVariance (data : List ℚ) : ℚ :=
  (data.map (fun v => (v - listMean data) ^ 2)).sum / data.length

/-- calculateZScore of src/src/utils/anomalyDetection.ts over the reals: 0 for an
empty population, 0 when the standard deviation is 0, else the standardized value. -/
noncomputable def calculateZScore (value : ℚ) (data : List ℚ) : ℝ :=
  if data.isEmpty then 0
  else
    let stdDev := Real.sqrt ((listVariance data : ℚ) : ℝ)
    if stdDev = 0 then 0
    else (((value : ℚ) : ℝ) - ((listMean data : ℚ) : ℝ)) / stdDev

/-- Decidable rational test for t < |calculateZScore value data|. -/
def zAbsGt (value : ℚ) (data : List ℚ) (t : ℚ) : Bool :=
  if data.isEmpty ∨ listVariance data = 0 then decide (t < 0)
  else decide (t < 0 ∨ t ^ 2 * listVariance data < (value - listMean data) ^ 2)

/-- Decidable rational test for 0 < calculateZScore value data. -/
def zPos (value : ℚ) (data : List ℚ) : Bool :=
  decide (¬(data.isEmpty ∨ listVariance data = 0) ∧ listMean data < value)

/-- detectZScoreAnomalies of anomalyDetection.ts; the z-score comparisons are the
decidable forms, the produced districtId is the array index. -/
def detectZScoreAnomalies (data : List ChartDataPoint) (threshold : ℚ) : List Anomaly :=
  (withIdx data).filterMap (fun p =>
    let values := data.map ChartDataPoint.value
    if zAbsGt p.2.value values threshold then
      some { districtId := p.1
             districtName := none
             type := .zScore
             severity := if zAbsGt p.2.value values 3 then .high else .medium }
    else none)

/-- calculateMovingAverage of anomalyDetection.ts: null (none) before the window
fills, else the window sum divided by the window size. -/
def calculateMovingAverage (data : List ℚ) (windowSize : ℕ) : List (Option ℚ) :=
  (List.range data.length).map (fun i =>
    if i + 1 < windowSize then none
    else some ((jsSlice data (i + 1 - windowSize) (i + 1)).sum / windowSize))

/-- detectMovingAverageAnomalies of anomalyDetection.ts (window size 5). -/
def detectMovingAverageAnomalies (data : List ChartDataPoint) (threshold : ℚ) : List Anomaly :=
  let values := data.map ChartDataPoint.value
  let movingAvg := calculateMovingAverage values 5
  (withIdx data).filterMap (fun p =>
    match movingAvg.getD p.1 none with
    | none => none
    | some avgValue =>
      let deviation := |p.2.value - avgValue|
      let percentDeviation := deviation / avgValue * 100
      if percentDeviation > threshold * 100 then
        some { districtId := p.1
               districtName := none
               type := .movingAverage
               severity := if percentDeviation > 200 then .high else .medium
               deviation := some percentDeviation
               movingAverage := some avgValue }
      else none)

/-- detectTurnoutAnomalies of anomalyDetection.ts.  The source reads
turnoutRates[index] while iterating districts, which is exactly the zip of the
district list with its mapped rate list. -/
def detectTurnoutAnomalies (districts : List District) : List Anomaly :=
  let turnoutRates := districts.map (fun d => d.votes / d.registeredVoters * 100)
  (districts.zip turnoutRates).filterMap (fun p =>
    if p.2 > 100 then
      some { districtId := p.1.id
             districtName := some p.1.name
             type := .turnoutRate
             severity := .high
             turnoutRate := some p.2 }
    else if zAbsGt p.2 turnoutRates 3 then
      some { districtId := p.1.id
             districtName := some p.1.name
             type := .turnoutRate
             severity := if zPos p.2 turnoutRates then .high else .medium
             turnoutRate := some p.2 }
    else none)

/-- detectVoteRateAnomalies of anomalyDetection.ts. -/
def detectVoteRateAnomalies (districts : List District) : List Anomaly :=
  let voteRates := districts.map District.voteVelocity
  let avgRate := voteRates.sum / voteRates.length
  districts.filterMap (fun d =>
    let deviation := |d.voteVelocity - avgRate|
    let percentDeviation := if avgRate > 0 then deviation / avgRate * 100 else 0
    if percentDeviation > 300 ∧ d.voteVelocity > avgRate then
      some { districtId := d.id
             districtName := some d.name
             type := .voteRate
             severity := if percentDeviation > 500 then .high else .medium
             voteRate := some d.voteVelocity
             expectedRate := some avgRate }
    else none)

/-- analyzeAllAnomalies of anomalyDetection.ts: pushes the turnout anomalies, then
the vote-rate anomalies; the history argument is received but never read, and the
try/catch wrapper is dead in the embedding because every operation is total. -/
def analyzeAllAnomalies (districts : List District) (_voteHistory : List VoteHistoryEntry) :
    List Anomaly :=
  detectTurnoutAnomalies districts ++ detectVoteRateAnomalies districts

/-- View of a vote history as the total-votes time series chart. -/
def historyChart (h : List VoteHistoryEntry) : List ChartDataPoint :=
  h.map (fun e => { value := e.totalVotes })

/-- Aggregation described by the specification for analyze(districts, history):
the anomalies of all four analyzers of its section 4.3 combined, the two
time-series analyzers applied to the total-votes series of the history at their
default thresholds.  This definition follows the wording of the specification and
exists to be compared with analyzeAllAnomalies, the definition from the source. -/
def specAnalyzeAllAnomalies (districts : List District) (voteHistory : List VoteHistoryEntry) :
    List Anomaly :=
  detectZScoreAnomalies (historyChart voteHistory) zScoreThreshold ++
    detectMovingAverageAnomalies (historyChart voteHistory) (3 / 2) ++
      detectTurnoutAnomalies districts ++ detectVoteRateAnomalies districts

/-- Per-district decision rule of the turnout-anomaly claim, written with the
real-valued z-score exactly as the specification words it: a rate above 100 is
always a high-severity anomaly; otherwise an absolute z-score above 3 among all
districts' rates is high when positive and medium when negative; otherwise no
anomaly. -/
noncomputable def claimTurnoutRule (districts : List District) (d : District) : Option Anomaly :=
  let rates := districts.map (fun x => x.votes / x.registeredVoters * 100)
  let rate := d.votes / d.registeredVoters * 100
  let z := calculateZScore rate rates
  if rate > 100 then
    some { districtId := d.id
           districtName := some d.name
           type := .turnoutRate
           severity := .high
           turnoutRate := some rate }
  else if 3 < |z| then
    some { districtId := d.id
           districtName := some d.name
           type := .turnoutRate
           severity := if 0 < z then .high else .medium
           turnoutRate := some rate }
  else none

/-- Per-district decision rule of the vote-rate-anomaly claim, with the mean
velocity passed in: flag only strictly above the mean with percent deviation
above 300, severity high above 500 and medium otherwise. -/
def claimVoteRateRule (avgRate : ℚ) (d : District) : Option Anomaly :=
  let percentDeviation := |d.voteVelocity - avgRate| / avgRate * 100
  if avgRate < d.voteVelocity ∧ percentDeviation > 300 then
    some { districtId := d.id
           districtName := some d.name
           type := .voteRate
           severity := if percentDeviation > 500 then .high else .medium
           voteRate := some d.voteVelocity
           expectedRate := some avgRate }
  else none

/-- State the Dashboard component threads through its candidate CRUD handlers. -/
structure AppState where
  candidates : List Candidate
  districts : List District
deriving DecidableEq, Repr

/-- handleAddCandidate of src/src/components/Dashboard.tsx with the freshly
generated id passed in: append the candidate, give every district a zero-valued
candidateVotes entry for the new id, leave votes untouched. -/
def handleAddCandidate (cand : Candidate) (s : AppState) : AppState :=
  { candidates := s.candidates ++ [cand]
    districts := s.districts.map (fun d =>
      { d with candidateVotes := objSet d.candidateVotes cand.id 0 }) }

/-- handleDeleteCandidate of Dashboard.tsx: drop the candidate, spread-delete its
vote entry from every district and subtract the removed amount from votes. -/
def handleDeleteCandidate (id : String) (s : AppState) : AppState :=
  { candidates := s.candidates.filter (fun c => c.id ≠ id)
    districts := s.districts.map (fun d =>
      { d with
        candidateVotes := objDelete d.candidateVotes id
        votes := d.votes - (objGet d.candidateVotes id).getD 0 }) }

/-- Candidate removal as the UI performs it: the handleDelete guard of
src/src/components/CandidateManager.tsx (refuse when at most 2 candidates exist,
without touching any state) in front of handleDeleteCandidate of Dashboard.tsx;
the user confirmation prompt is assumed answered positively. -/
def removeCandidate (id : String) (s : AppState) : Except String AppState :=
  if s.candidates.length ≤ 2 then Except.error "You must have at least 2 candidates"
  else Except.ok (handleDeleteCandidate id s)

/-- Draws that make the rounded candidate shares of a 102-vote increment sum to
103: the three shares are 1/4, 1/4, 1/2 of 102 and both 25.5 roundings go up. -/
def tdDrift : TickRand :=
  { anomalyDraw := 1 / 2, typeDraw := 0, incDraw := 0
    distDraw := fun i => if i = 0 then 5 / 14 else 10 / 21, now := 60000 }

/-- Draws that inject a high-turnout anomaly (Bernoulli draw 0) of 5 times the
base rate with no increment variance. -/
def tdOverflowAnomaly : TickRand :=
  { anomalyDraw := 0, typeDraw := 0, incDraw := 1 / 2, distDraw := fun _ => 1 / 2, now := 60000 }

/-- Draws for a plain increment (no anomaly) with no increment variance. -/
def tdOverflowNormal : TickRand :=
  { anomalyDraw := 1 / 2, typeDraw := 0, incDraw := 1 / 2, distDraw := fun _ => 1 / 2, now := 60000 }

/-- Draws splitting an increment exactly in half between two candidates. -/
def tdShareExact : TickRand :=
  { anomalyDraw := 1 / 2, typeDraw := 0, incDraw := 1 / 2, distDraw := fun _ => 5 / 7, now := 60000 }

/-- District sitting exactly at its registered-voter count. -/
def overflowDistrict : District :=
  { id := 1, name := "District 1", registeredVoters := 1000, baseVoteRate := 100, votes := 1000
    candidateVotes := [("A", 1000)], voteVelocity := 0, lastUpdate := 0, status := .active }

/-- Two-candidate district in its freshly initialized state. -/
def freshDistrict : District :=
  { id := 1, name := "District 1", registeredVoters := 1000, baseVoteRate := 100, votes := 0
    candidateVotes := [("A", 0), ("B", 0)], voteVelocity := 0, lastUpdate := 0, status := .active }

/-- Ten-entry vote history that is flat at 0 and spikes to 100 at the end. -/
def histSpike : List VoteHistoryEntry :=
  (List.range 10).map (fun i =>
    { timestamp := i, candidateTotals := [], totalVotes := if i = 9 then 100 else 0, districts := [] })

/-- District at 110 percent turnout. -/
def turnout110 : District :=
  { id := 1, name := "District 1", registeredVoters := 1000, baseVoteRate := 100, votes := 1100
    candidateVotes := [], voteVelocity := 10, lastUpdate := 0, status := .active }

/-- District at 70 percent turnout. -/
def turnout70 : District :=
  { id := 1, name := "District 1", registeredVoters := 1000, baseVoteRate := 100, votes := 700
    candidateVotes := [], voteVelocity := 10, lastUpdate := 0, status := .active }

/-- District at 65 percent turnout. -/
def turnout65 : District :=
  { id := 2, name := "District 2", registeredVoters := 1000, baseVoteRate := 100, votes := 650
    candidateVotes := [], voteVelocity := 10, lastUpdate := 0, status := .active }

/-- District distinguished only by its vote velocity. -/
def velocityDistrict (i : ℤ) (v : ℚ) : District :=
  { id := i, name := "District", registeredVoters := 1000, baseVoteRate := 100, votes := 0
    candidateVotes := [], voteVelocity := v, lastUpdate := 0, status := .active }

/-- Three-candidate application state with votes attributed to every candidate. -/
def crudState : AppState :=
  { candidates := defaultCandidates
    districts := [{ id := 1, name := "District 1", registeredVoters := 1000, baseVoteRate := 100
                    votes := 17, candidateVotes := [("A", 10), ("B", 5), ("C", 2)]
                    voteVelocity := 0, lastUpdate := 0, status := .active }] }

/-- Two-candidate application state, at the enforced candidate floor. -/
def crudStateTwo : AppState :=
  { candidates := defaultCandidates.take 2
    districts := [{ id := 1, name := "District 1", registeredVoters := 1000, baseVoteRate := 100
                    votes := 15, candidateVotes := [("A", 10), ("B", 5)]
                    voteVelocity := 0, lastUpdate := 0, status := .active }] }

/-- Candidate with an id used nowhere in crudStateTwo. -/
def newCandidate : Candidate :=
  { id := "N", name := "Candidate N", party := "New Party", color := "#f59e0b" }

/-- Fields of a district a tick must never touch. -/
def districtFrame (d : District) : ℤ × String × ℚ × ℚ × Status :=
  (d.id, d.name, d.registeredVoters, d.baseVoteRate, d.status)

/-- Relation between a district before and after a candidate removal: the removed
entry is gone, all other entries are untouched, and votes drops by exactly the
amount that was attributed to the removed candidate. -/
def removedDistrictRel (id : String) (d0 d1 : District) : Prop :=
  objGet d1.candidateVotes id = none ∧
  (∀ k, k ≠ id → objGet d1.candidateVotes k = objGet d0.candidateVotes k) ∧
  d1.votes = d0.votes - (objGet d0.candidateVotes id).getD 0

theorem objGet_cons (p : String × ℚ) (m : List (String × ℚ)) (k : String) :
    objGet (p :: m) k = if p.1 = k then some p.2 else objGet m k := by
  by_cases h : p.1 = k
  · simp [objGet, List.find?_cons_of_pos, h]
  · simp [objGet, List.find?_cons_of_neg, h]

theorem objGet_eq_none_iff (m : List (String × ℚ)) (k : String) :
    objGet m k = none ↔ ∀ p ∈ m, p.1 ≠ k := by
  simp [objGet, List.find?_eq_none]

theorem objGet_objDelete_self (m : List (String × ℚ)) (k : String) :
    objGet (objDelete m k) k = none := by
  rw [objGet_eq_none_iff]
  intro p hp
  have := List.of_mem_filter hp
  simpa using this

theorem objDelete_cons_of_eq (p : String × ℚ) (m : List (String × ℚ)) (k : String)
    (hpk : p.1 = k) : objDelete (p :: m) k = objDelete m k := by
  simp [objDelete, List.filter_cons, hpk]

theorem objDelete_cons_of_ne (p : String × ℚ) (m : List (String × ℚ)) (k : String)
    (hpk : p.1 ≠ k) : objDelete (p :: m) k = p :: objDelete m k := by
  simp [objDelete, List.filter_cons, hpk]

theorem objGet_objDelete_ne (m : List (String × ℚ)) (k k2 : String) (h : k2 ≠ k) :
    objGet (objDelete m k) k2 = objGet m k2 := by
  induction m with
  | nil => rfl
  | cons p m ih =>
    rw [objGet_cons]
    by_cases hpk : p.1 = k
    · have hpk2 : p.1 ≠ k2 := by
        intro hc
        exact h (by rw [← hc]; exact hpk)
      rw [if_neg hpk2, objDelete_cons_of_eq p m k hpk, ih]
    · rw [objDelete_cons_of_ne p m k hpk, objGet_cons, ih]

theorem objGet_append_single (m : List (String × ℚ)) (k : String) (v : ℚ)
    (h : ∀ p ∈ m, p.1 ≠ k) : objGet (m ++ [(k, v)]) k = some v := by
  induction m with
  | nil => simp [objGet]
  | cons p m ih =>
    have hp : p.1 ≠ k := h p (by simp)
    rw [List.cons_append, objGet_cons, if_neg hp]
    exact ih (fun q hq => h q (by simp [hq]))

theorem objDelete_append_single (m : List (String × ℚ)) (k : String) (v : ℚ)
    (h : ∀ p ∈ m, p.1 ≠ k) : objDelete (m ++ [(k, v)]) k = m := by
  unfold objDelete
  rw [List.filter_append]
  have h1 : m.filter (fun p => p.1 ≠ k) = m :=
    List.filter_eq_self.mpr (fun p hp => by simpa using h p hp)
  have h2 : List.filter (fun p => p.1 ≠ k) [(k, v)] = [] := by simp
  rw [h1, h2, List.append_nil]

theorem objSet_absent (m : List (String × ℚ)) (k : String) (v : ℚ)
    (h : ∀ p ∈ m, p.1 ≠ k) : objSet m k v = m ++ [(k, v)] := by
  have hc : ¬(m.any (fun q => q.1 = k) = true) := by
    simp only [List.any_eq_true, decide_eq_true_eq]
    rintro ⟨p, hp, hk⟩
    exact h p hp hk
  unfold objSet
  rw [if_neg hc]

theorem objSet_cons_ne (p : String × ℚ) (m : List (String × ℚ)) (k : String) (v : ℚ)
    (h : p.1 ≠ k) : objSet (p :: m) k v = p :: objSet m k v := by
  unfold objSet
  by_cases hm : m.any (fun q => q.1 = k)
  · simp [List.any_cons, hm, h]
  · simp [List.any_cons, hm, h]

theorem sumValues_nil : sumValues [] = 0 := rfl

theorem sumValues_cons (p : String × ℚ) (m : List (String × ℚ)) :
    sumValues (p :: m) = p.2 + sumValues m := by
  simp [sumValues]

theorem sumValues_append (m1 m2 : List (String × ℚ)) :
    sumValues (m1 ++ m2) = sumValues m1 + sumValues m2 := by
  simp [sumValues]

theorem sumValues_objSet_add (m : List (String × ℚ)) (k : String) (x : ℚ)
    (h : (m.map Prod.fst).Nodup) :
    sumValues (objSet m k ((objGet m k).getD 0 + x)) = sumValues m + x := by
  induction m with
  | nil =>
    simp [objSet, objGet, sumValues]
  | cons p m ih =>
    by_cases hpk : p.1 = k
    · have hm : ∀ q ∈ m, q.1 ≠ k := by
        intro q hq hqk
        have : p.1 ∈ m.map Prod.fst := by
          rw [hpk, ← hqk]
          exact List.mem_map_of_mem Prod.fst hq
        exact (List.nodup_cons.mp h).1 this
      have hget : objGet (p :: m) k = some p.2 := by rw [objGet_cons, if_pos hpk]
      have hany : (p :: m).any (fun q => q.1 = k) = true := by simp [List.any_cons, hpk]
      rw [hget]
      unfold objSet
      rw [if_pos hany]
      have hmap : m.map (fun q => if q.1 = k then (k, (some p.2).getD 0 + x) else q) = m := by
        conv_rhs => rw [← List.map_id m]
        exact List.map_congr_left (fun q hq => by rw [if_neg (hm q hq)]; rfl)
      simp only [List.map_cons, if_pos hpk, hmap]
      rw [sumValues_cons, sumValues_cons]
      simp only [Option.getD_some]
      ring
    · have hget : objGet (p :: m) k = objGet m k := by rw [objGet_cons, if_neg hpk]
      rw [hget, objSet_cons_ne p m k _ hpk, sumValues_cons, sumValues_cons,
        ih (List.nodup_cons.mp h).2]
      ring

theorem keys_objSet_present (m : List (String × ℚ)) (k : String) (v : ℚ)
    (h : m.any (fun q => q.1 = k) = true) :
    (objSet m k v).map Prod.fst = m.map Prod.fst := by
  unfold objSet
  rw [if_pos h, List.map_map]
  refine List.map_congr_left (fun q _ => ?_)
  by_cases hq : q.1 = k
  · simp [hq]
  · simp [hq]

theorem keysNodup_objSet (m : List (String × ℚ)) (k : String) (v : ℚ)
    (h : (m.map Prod.fst).Nodup) : ((objSet m k v).map Prod.fst).Nodup := by
  by_cases hany : m.any (fun q => q.1 = k) = true
  · rw [keys_objSet_present m k v hany]
    exact h
  · rw [objSet, if_neg hany]
    have hk : k ∉ m.map Prod.fst := by
      intro hc
      rcases List.mem_map.mp hc with ⟨q, hq, hqk⟩
      exact hany (List.any_eq_true.mpr ⟨q, hq, by simp [hqk]⟩)
    simp only [List.map_append, List.map_cons, List.map_nil]
    rw [List.nodup_append]
    refine ⟨h, List.nodup_singleton k, ?_⟩
    intro a ha hb
    have hak : a = k := by simpa using hb
    exact hk (hak ▸ ha)

theorem mem_keys_objSet_self (m : List (String × ℚ)) (k : String) (v : ℚ) :
    k ∈ (objSet m k v).map Prod.fst := by
  by_cases hany : m.any (fun q => q.1 = k) = true
  · rw [keys_objSet_present m k v hany]
    rcases List.any_eq_true.mp hany with ⟨q, hq, hqk⟩
    exact List.mem_map.mpr ⟨q, hq, of_decide_eq_true hqk⟩
  · rw [objSet, if_neg hany]
    simp

theorem mem_keys_objSet_mono (m : List (String × ℚ)) (k k0 : String) (v : ℚ)
    (h : k0 ∈ m.map Prod.fst) : k0 ∈ (objSet m k v).map Prod.fst := by
  by_cases hany : m.any (fun q => q.1 = k) = true
  · rw [keys_objSet_present m k v hany]
    exact h
  · rw [objSet, if_neg hany]
    simp [h]

theorem objSet_entry_fun (g : String → ℚ) (m : List (String × ℚ)) (k : String)
    (hm : ∀ p ∈ m, p.2 = g p.1) : ∀ p ∈ objSet m k (g k), p.2 = g p.1 := by
  intro p hp
  by_cases hany : m.any (fun q => q.1 = k) = true
  · rw [objSet, if_pos hany] at hp
    rcases List.mem_map.mp hp with ⟨q, hq, hqp⟩
    by_cases hqk : q.1 = k
    · rw [if_pos hqk] at hqp
      rw [← hqp]
    · rw [if_neg hqk] at hqp
      rw [← hqp]
      exact hm q hq
  · rw [objSet, if_neg hany] at hp
    rcases List.mem_append.mp hp with hp1 | hp2
    · exact hm p hp1
    · have hpe : p = (k, g k) := by simpa using hp2
      rw [hpe]

theorem objGet_of_entry_fun (g : String → ℚ) (m : List (String × ℚ)) (k : String)
    (hm : ∀ p ∈ m, p.2 = g p.1) (hk : k ∈ m.map Prod.fst) : objGet m k = some (g k) := by
  rcases hfind : m.find? (fun p => p.1 = k) with _ | q
  · exfalso
    rw [List.find?_eq_none] at hfind
    rcases List.mem_map.mp hk with ⟨q, hq, hqk⟩
    exact hfind q hq (by simpa using hqk)
  · have hqk : q.1 = k := by simpa using List.find?_some hfind
    have hqm : q ∈ m := List.mem_of_find?_eq_some hfind
    unfold objGet
    rw [hfind]
    simp [hm q hqm, hqk]

theorem sumValues_foldl_addShares (g : String → ℚ) (cs : List Candidate) :
    ∀ m : List (String × ℚ), (m.map Prod.fst).Nodup →
      sumValues (cs.foldl (fun m c => objSet m c.id ((objGet m c.id).getD 0 + g c.id)) m) =
        sumValues m + (cs.map (fun c => g c.id)).sum := by
  induction cs with
  | nil =>
    intro m _
    simp
  | cons c cs ih =>
    intro m hm
    simp only [List.foldl_cons, List.map_cons, List.sum_cons]
    rw [ih _ (keysNodup_objSet _ _ _ hm), sumValues_objSet_add _ _ _ hm]
    ring

theorem mem_keys_foldl_objSet (g : String → ℚ) (cs : List Candidate) :
    ∀ (m : List (String × ℚ)) (k : String), k ∈ m.map Prod.fst →
      k ∈ (cs.foldl (fun m c => objSet m c.id (g c.id)) m).map Prod.fst := by
  induction cs with
  | nil =>
    intro m k hk
    simpa using hk
  | cons c cs ih =>
    intro m k hk
    exact ih _ k (mem_keys_objSet_mono _ _ _ _ hk)

theorem entry_fun_foldl_objSet (g : String → ℚ) (cs : List Candidate) :
    ∀ m : List (String × ℚ), (∀ p ∈ m, p.2 = g p.1) →
      ∀ p ∈ cs.foldl (fun m c => objSet m c.id (g c.id)) m, p.2 = g p.1 := by
  induction cs with
  | nil =>
    intro m hm
    exact hm
  | cons c cs ih =>
    intro m hm
    exact ih _ (objSet_entry_fun g m c.id hm)

theorem mem_keys_foldl_objSet_of_mem (g : String → ℚ) (cs : List Candidate) (c : Candidate) :
    ∀ m : List (String × ℚ), c ∈ cs →
      c.id ∈ (cs.foldl (fun m cand => objSet m cand.id (g cand.id)) m).map Prod.fst := by
  induction cs with
  | nil =>
    intro m hc
    simp at hc
  | cons c2 cs ih =>
    intro m hc
    rcases List.mem_cons.mp hc with hce | hcm
    · subst hce
      simp only [List.foldl_cons]
      exact mem_keys_foldl_objSet g cs _ c.id (mem_keys_objSet_self m c.id _)
    · simp only [List.foldl_cons]
      exact ih _ hcm

theorem objGet_newCandidateVotes (td : TickRand) (cands : List Candidate) (d : District)
    (c : Candidate) (hc : c ∈ cands) :
    objGet (newCandidateVotes td cands d) c.id = some (tickShare td cands d c.id) := by
  unfold newCandidateVotes
  exact objGet_of_entry_fun (tickShare td cands d) _ c.id
    (entry_fun_foldl_objSet _ cands [] (by simp))
    (mem_keys_foldl_objSet_of_mem _ cands c [] hc)

theorem updateOne_of_cap (td : TickRand) (cands : List Candidate) (d : District)
    (h : d.registeredVoters * (51 / 50) < d.votes + tickIncrement td cands d) :
    updateOne td cands d = d := by
  simp only [updateOne]
  rw [if_pos h]

theorem updateOne_of_not_cap (td : TickRand) (cands : List Candidate) (d : District)
    (h : ¬ d.registeredVoters * (51 / 50) < d.votes + tickIncrement td cands d) :
    updateOne td cands d =
      { d with
        votes := d.votes + tickIncrement td cands d
        candidateVotes := cands.foldl
          (fun m c => objSet m c.id (((objGet m c.id).getD 0) +
            ((objGet (newCandidateVotes td cands d) c.id).getD 0)))
          d.candidateVotes
        voteVelocity := if 0 < (td.now - d.lastUpdate) / 1000 / 60
          then tickIncrement td cands d / ((td.now - d.lastUpdate) / 1000 / 60) else 0
        lastUpdate := td.now } := by
  simp only [updateOne]
  rw [if_neg h]

theorem updateOne_frame (td : TickRand) (cands : List Candidate) (d : District) :
    districtFrame (updateOne td cands d) = districtFrame d := by
  by_cases h : d.registeredVoters * (51 / 50) < d.votes + tickIncrement td cands d
  · rw [updateOne_of_cap td cands d h]
  · rw [updateOne_of_not_cap td cands d h]
    rfl

/-- Claim C10: a tick preserves the length and order of the district list and
never alters a district's id, name, registeredVoters, baseVoteRate or status. -/
theorem claim_C10 (rand : ℕ → TickRand) (cands : List Candidate) (ds : List District) :
    (updateDistrictVotes rand cands ds).length = ds.length ∧
      (updateDistrictVotes rand cands ds).map districtFrame = ds.map districtFrame := by
  induction ds generalizing rand with
  | nil => exact ⟨rfl, rfl⟩
  | cons d rest ih =>
    obtain ⟨hl, hm⟩ := ih (fun i => rand (i + 1))
    refine ⟨by simp [updateDistrictVotes, hl], ?_⟩
    simp only [updateDistrictVotes, List.map_cons, hm]
    rw [updateOne_frame]

/-- Claim C1 (amended): a tick adds the full generated increment to votes but only
the rounded per-candidate shares to candidateVotes, so the sum invariant survives
a tick precisely when the rounded shares happen to add up to the increment (the
capped branch keeps the district, hence the invariant, unchanged). -/
theorem claim_C1_amended (td : TickRand) (cands : List Candidate) (d : District)
    (hkeys : (d.candidateVotes.map Prod.fst).Nodup)
    (hsum : sumValues d.candidateVotes = d.votes)
    (hshares : (cands.map (fun c => tickShare td cands d c.id)).sum = tickIncrement td cands d) :
    sumValues (updateOne td cands d).candidateVotes = (updateOne td cands d).votes := by
  by_cases hcap : d.registeredVoters * (51 / 50) < d.votes + tickIncrement td cands d
  · rw [updateOne_of_cap td cands d hcap]
    exact hsum
  · rw [updateOne_of_not_cap td cands d hcap]
    dsimp only
    rw [sumValues_foldl_addShares
      (fun k => (objGet (newCandidateVotes td cands d) k).getD 0) cands d.candidateVotes hkeys]
    rw [hsum, ← hshares]
    congr 1
    exact congrArg List.sum (List.map_congr_left
      (fun c hc => by rw [objGet_newCandidateVotes td cands d c hc]; rfl))

/-- Claim C1 (counterexample): starting from the freshly initialized Downtown
district, which satisfies the sum invariant (votes 0, all shares 0), one tick with
the tdDrift draws yields votes 102 but candidate-vote sum 103, so the invariant is
not maintained by updateDistrictVotes. -/
theorem claim_C1_counterexample :
    (((initializeDistrictData 0 defaultCandidates).take 1).map
        (fun d => (d.votes, sumValues d.candidateVotes))) = [(0, 0)] ∧
      ((updateDistrictVotes (fun _ => tdDrift) defaultCandidates
          ((initializeDistrictData 0 defaultCandidates).take 1)).map
        (fun d => (d.votes, sumValues d.candidateVotes))) = [(102, 103)] := by
  constructor
  · simp [initializeDistrictData, baseDistricts, defaultCandidates, createEmptyCandidateVotes,
      objSet, sumValues]
  · simp [updateDistrictVotes, updateOne, tickIncrement, hasAnomaly, injectionRate,
      drawnAnomalyType, injectAnomaly, generateVoteIncrement, newCandidateVotes, tickShare,
      candidateDistribution, normalizeDistribution, buildDistribution, withIdx, objSet, objGet,
      sumValues, initializeDistrictData, baseDistricts, defaultCandidates,
      createEmptyCandidateVotes, tdDrift, jsRound, List.find?,
      show List.range 3 = [0, 1, 2] from rfl]
    norm_num

/-- Claim C1 witness: with two candidates and a draw splitting a 100-vote
increment into two exact halves, the rounded shares sum to the increment and the
amended invariant-preservation theorem applies. -/
theorem claim_C1_witness :
    ((defaultCandidates.take 2).map
        (fun c => tickShare tdShareExact (defaultCandidates.take 2) freshDistrict c.id)).sum =
      tickIncrement tdShareExact (defaultCandidates.take 2) freshDistrict ∧
    sumValues (updateOne tdShareExact (defaultCandidates.take 2) freshDistrict).candidateVotes =
      (updateOne tdShareExact (defaultCandidates.take 2) freshDistrict).votes := by
  have hshares : ((defaultCandidates.take 2).map
      (fun c => tickShare tdShareExact (defaultCandidates.take 2) freshDistrict c.id)).sum =
        tickIncrement tdShareExact (defaultCandidates.take 2) freshDistrict := by
    simp [tickShare, tickIncrement, hasAnomaly, injectionRate, drawnAnomalyType, injectAnomaly,
      generateVoteIncrement, candidateDistribution, normalizeDistribution, buildDistribution,
      withIdx, objGet, objSet, defaultCandidates, freshDistrict, tdShareExact, jsRound,
      List.find?, show List.range 2 = [0, 1] from rfl]
    norm_num
  refine ⟨hshares, claim_C1_amended tdShareExact (defaultCandidates.take 2) freshDistrict
    (by decide) (by simp [freshDistrict, sumValues]) hshares⟩

/-- Claim C2 (amended): whenever the prospective new total exceeds
registeredVoters times 1.02, anomaly-injected or not, the district is returned
completely unchanged for that tick: no votes are added and the status is not
touched (in particular it never becomes closed, a value the status type does not
even contain). -/
theorem claim_C2_amended (td : TickRand) (cands : List Candidate) (d : District)
    (h : d.registeredVoters * (51 / 50) < d.votes + tickIncrement td cands d) :
    updateOne td cands d = d :=
  updateOne_of_cap td cands d h

/-- Claim C2 (counterexample): a district at 100 percent turnout receiving an
anomaly-injected 500-vote increment (Bernoulli draw 0) is left completely
unchanged, contradicting the exemption of anomalous increments from the cap; a
plain overflowing increment likewise leaves the status active and adds no votes,
contradicting the claimed transition to closed. -/
theorem claim_C2_counterexample :
    hasAnomaly tdOverflowAnomaly = true ∧
    overflowDistrict.registeredVoters * (51 / 50) <
      overflowDistrict.votes + tickIncrement tdOverflowAnomaly defaultCandidates overflowDistrict ∧
    updateOne tdOverflowAnomaly defaultCandidates overflowDistrict = overflowDistrict ∧
    hasAnomaly tdOverflowNormal = false ∧
    overflowDistrict.registeredVoters * (51 / 50) <
      overflowDistrict.votes + tickIncrement tdOverflowNormal defaultCandidates overflowDistrict ∧
    (updateOne tdOverflowNormal defaultCandidates overflowDistrict).status = Status.active ∧
    (updateOne tdOverflowNormal defaultCandidates overflowDistrict).votes =
      overflowDistrict.votes := by
  have hincA : tickIncrement tdOverflowAnomaly defaultCandidates overflowDistrict = 500 := by
    simp [tickIncrement, hasAnomaly, injectionRate, drawnAnomalyType, injectAnomaly,
      generateVoteIncrement, tdOverflowAnomaly, overflowDistrict, defaultCandidates, jsRound]
    norm_num
  have hincB : tickIncrement tdOverflowNormal defaultCandidates overflowDistrict = 100 := by
    simp [tickIncrement, hasAnomaly, injectionRate, drawnAnomalyType, injectAnomaly,
      generateVoteIncrement, tdOverflowNormal, overflowDistrict, defaultCandidates, jsRound]
    norm_num
  have hcapA : overflowDistrict.registeredVoters * (51 / 50) <
      overflowDistrict.votes + tickIncrement tdOverflowAnomaly defaultCandidates overflowDistrict := by
    rw [hincA]
    norm_num [overflowDistrict]
  have hcapB : overflowDistrict.registeredVoters * (51 / 50) <
      overflowDistrict.votes + tickIncrement tdOverflowNormal defaultCandidates overflowDistrict := by
    rw [hincB]
    norm_num [overflowDistrict]
  have hA := updateOne_of_cap tdOverflowAnomaly defaultCandidates overflowDistrict hcapA
  have hB := updateOne_of_cap tdOverflowNormal defaultCandidates overflowDistrict hcapB
  refine ⟨?_, hcapA, hA, ?_, hcapB, by rw [hB]; rfl, by rw [hB]⟩
  · simp [hasAnomaly, injectionRate, tdOverflowAnomaly]
  · simp [hasAnomaly, injectionRate, tdOverflowNormal]
    norm_num

/-- Claim C2 witness: the amended cap theorem applied to the overflowing
anomaly-injected tick. -/
theorem claim_C2_witness :
    overflowDistrict.registeredVoters * (51 / 50) <
      overflowDistrict.votes + tickIncrement tdOverflowAnomaly defaultCandidates overflowDistrict ∧
    updateOne tdOverflowAnomaly defaultCandidates overflowDistrict = overflowDistrict := by
  have hcap : overflowDistrict.registeredVoters * (51 / 50) <
      overflowDistrict.votes + tickIncrement tdOverflowAnomaly defaultCandidates overflowDistrict := by
    have hinc : tickIncrement tdOverflowAnomaly defaultCandidates overflowDistrict = 500 := by
      simp [tickIncrement, hasAnomaly, injectionRate, drawnAnomalyType, injectAnomaly,
        generateVoteIncrement, tdOverflowAnomaly, overflowDistrict, defaultCandidates, jsRound]
      norm_num
    rw [hinc]
    norm_num [overflowDistrict]
  exact ⟨hcap, claim_C2_amended tdOverflowAnomaly defaultCandidates overflowDistrict hcap⟩

theorem length_filter_ne_of_mem (cands : List Candidate) (id : String)
    (hmem : id ∈ cands.map Candidate.id) (hnd : (cands.map Candidate.id).Nodup) :
    (cands.filter (fun c => c.id ≠ id)).length = cands.length - 1 := by
  induction cands with
  | nil => simp at hmem
  | cons c cands ih =>
    by_cases hc : c.id = id
    · have hnotin : ∀ x ∈ cands, x.id ≠ id := by
        intro x hx hxid
        have : c.id ∈ cands.map Candidate.id := by
          rw [hc, ← hxid]
          exact List.mem_map_of_mem Candidate.id hx
        exact (List.nodup_cons.mp (by simpa using hnd)).1 this
      have hfe : cands.filter (fun x => x.id ≠ id) = cands :=
        List.filter_eq_self.mpr (fun x hx => by simpa using hnotin x hx)
      rw [List.filter_cons, if_neg (by simp [hc]), hfe]
      simp
    · have hmem2 : id ∈ cands.map Candidate.id := by
        rcases List.mem_map.mp hmem with ⟨x, hx, hxid⟩
        rcases List.mem_cons.mp hx with hxc | hxm
        · exact absurd (by rw [← hxc]; exact hxid) hc
        · exact List.mem_map.mpr ⟨x, hxm, hxid⟩
      have hpos : 1 ≤ cands.length := by
        rcases List.mem_map.mp hmem2 with ⟨x, hx, _⟩
        exact List.length_pos.mpr (List.ne_nil_of_mem hx)
      have := ih hmem2 (List.nodup_cons.mp (by simpa using hnd)).2
      rw [List.filter_cons, if_pos (by simp [hc]), List.length_cons, this, List.length_cons]
      omega

theorem forall₂_map_self {α : Type} (f : α → α) (P : α → α → Prop) (l : List α)
    (h : ∀ a ∈ l, P a (f a)) : List.Forall₂ P l (l.map f) := by
  induction l with
  | nil => exact List.Forall₂.nil
  | cons a l ih =>
    exact List.Forall₂.cons (h a (by simp)) (ih (fun x hx => h x (by simp [hx])))

/-- Claim C4: the UI removal path fails (with an error surfaced to the caller and
no state change, the Except value carrying no new state) exactly when fewer than
2 candidates would remain after the removal; with 3 or more candidates it
succeeds, deletes the id from every district's vote map, leaves all other
entries untouched and decrements every district's votes by the amount attributed
to the removed id. -/
theorem claim_C4 (s : AppState) (id : String)
    (hmem : id ∈ s.candidates.map Candidate.id)
    (hnd : (s.candidates.map Candidate.id).Nodup) :
    ((∃ e, removeCandidate id s = Except.error e) ↔
      (s.candidates.filter (fun c => c.id ≠ id)).length < 2) ∧
    ∀ s2, removeCandidate id s = Except.ok s2 →
      s2.candidates = s.candidates.filter (fun c => c.id ≠ id) ∧
      List.Forall₂ (removedDistrictRel id) s.districts s2.districts := by
  have hlen : (s.candidates.filter (fun c => c.id ≠ id)).length = s.candidates.length - 1 :=
    length_filter_ne_of_mem s.candidates id hmem hnd
  have hpos : 1 ≤ s.candidates.length := by
    rcases List.mem_map.mp hmem with ⟨x, hx, _⟩
    exact List.length_pos.mpr (List.ne_nil_of_mem hx)
  constructor
  · constructor
    · rintro ⟨e, he⟩
      rw [removeCandidate] at he
      by_cases hc : s.candidates.length ≤ 2
      · omega
      · rw [if_neg hc] at he
        exact absurd he (by simp)
    · intro hlt
      refine ⟨"You must have at least 2 candidates", ?_⟩
      rw [removeCandidate, if_pos (by omega)]
  · intro s2 hs2
    rw [removeCandidate] at hs2
    by_cases hc : s.candidates.length ≤ 2
    · rw [if_pos hc] at hs2
      exact absurd hs2 (by simp)
    · rw [if_neg hc] at hs2
      have hs2e : s2 = handleDeleteCandidate id s := by
        injection hs2 with h
        exact h.symm
      subst hs2e
      refine ⟨rfl, ?_⟩
      refine forall₂_map_self _ _ _ (fun d _ => ?_)
      refine ⟨objGet_objDelete_self d.candidateVotes id, ?_, rfl⟩
      intro k hk
      exact objGet_objDelete_ne d.candidateVotes id k hk

/-- Claim C4 witness: at the two-candidate floor the removal of A fails with the
surfaced error, and with three candidates the removal of C deletes its entry
from the one district and decrements votes by the removed amount. -/
theorem claim_C4_witness :
    removeCandidate "A" crudStateTwo = Except.error "You must have at least 2 candidates" ∧
    List.Forall₂ (removedDistrictRel "C") crudState.districts
      (handleDeleteCandidate "C" crudState).districts := by
  constructor
  · rfl
  · exact ((claim_C4 crudState "C" (by decide) (by decide)).2
      (handleDeleteCandidate "C" crudState) rfl).2

/-- Claim C7: adding a fresh candidate appends a zero-valued entry to every
district's vote map leaving votes untouched, and immediately removing that same
candidate restores the entire application state (candidate list and every
district) exactly. -/
theorem claim_C7 (s : AppState) (cand : Candidate)
    (hfreshC : cand.id ∉ s.candidates.map Candidate.id)
    (hfreshD : ∀ d ∈ s.districts, objGet d.candidateVotes cand.id = none)
    (hlen : 2 ≤ s.candidates.length) :
    (handleAddCandidate cand s).districts =
      s.districts.map (fun d =>
        { d with candidateVotes := d.candidateVotes ++ [(cand.id, 0)] }) ∧
    removeCandidate cand.id (handleAddCandidate cand s) = Except.ok s := by
  have habsent : ∀ d ∈ s.districts, ∀ p ∈ d.candidateVotes, p.1 ≠ cand.id := by
    intro d hd
    exact (objGet_eq_none_iff d.candidateVotes cand.id).mp (hfreshD d hd)
  have hadd : (handleAddCandidate cand s).districts =
      s.districts.map (fun d =>
        { d with candidateVotes := d.candidateVotes ++ [(cand.id, 0)] }) := by
    simp only [handleAddCandidate]
    exact List.map_congr_left (fun d hd => by
      rw [objSet_absent d.candidateVotes cand.id 0 (habsent d hd)])
  refine ⟨hadd, ?_⟩
  have hguard : ¬ (handleAddCandidate cand s).candidates.length ≤ 2 := by
    simp only [handleAddCandidate, List.length_append, List.length_cons, List.length_nil]
    omega
  rw [removeCandidate, if_neg hguard]
  have hcands : (handleAddCandidate cand s).candidates.filter (fun c => c.id ≠ cand.id) =
      s.candidates := by
    simp only [handleAddCandidate, List.filter_append]
    have h1 : s.candidates.filter (fun c => c.id ≠ cand.id) = s.candidates :=
      List.filter_eq_self.mpr (fun c hc => by
        have hne : c.id ≠ cand.id := fun hcid =>
          hfreshC (by rw [← hcid]; exact List.mem_map_of_mem Candidate.id hc)
        simp [hne])
    have h2 : List.filter (fun c => c.id ≠ cand.id) [cand] = [] := by simp
    rw [h1, h2, List.append_nil]
  have hdists : (handleDeleteCandidate cand.id (handleAddCandidate cand s)).districts =
      s.districts := by
    simp only [handleDeleteCandidate, hadd, List.map_map]
    have : ∀ d ∈ s.districts,
        ((fun d => { d with
            candidateVotes := objDelete d.candidateVotes cand.id
            votes := d.votes - (objGet d.candidateVotes cand.id).getD 0 }) ∘
          (fun d => { d with candidateVotes := d.candidateVotes ++ [(cand.id, 0)] })) d = d := by
      intro d hd
      simp only [Function.comp_apply]
      rw [objDelete_append_single d.candidateVotes cand.id 0 (habsent d hd),
        objGet_append_single d.candidateVotes cand.id 0 (habsent d hd)]
      simp
    conv_rhs => rw [← List.map_id s.districts]
    exact List.map_congr_left (fun d hd => by rw [this d hd]; rfl)
  have hcands2 : (handleDeleteCandidate cand.id (handleAddCandidate cand s)).candidates =
      s.candidates := by
    simp only [handleDeleteCandidate]
    exact hcands
  congr 1
  cases hdel : handleDeleteCandidate cand.id (handleAddCandidate cand s) with
  | mk cs ds =>
    rw [hdel] at hcands2 hdists
    simp only at hcands2 hdists
    rw [hcands2, hdists]

/-- Claim C7 witness: the add-then-remove round trip on the two-candidate state
with the fresh candidate N. -/
theorem claim_C7_witness :
    (handleAddCandidate newCandidate crudStateTwo).districts =
      crudStateTwo.districts.map (fun d =>
        { d with candidateVotes := d.candidateVotes ++ [(newCandidate.id, 0)] }) ∧
    removeCandidate newCandidate.id (handleAddCandidate newCandidate crudStateTwo) =
      Except.ok crudStateTwo :=
  claim_C7 crudStateTwo newCandidate (by decide) (by decide) (by decide)

theorem listVariance_nonneg (data : List ℚ) : 0 ≤ listVariance data := by
  unfold listVariance
  apply div_nonneg
  · apply List.sum_nonneg
    intro x hx
    rcases List.mem_map.mp hx with ⟨v, _, hvx⟩
    rw [← hvx]
    positivity
  · positivity

theorem sqrt_listVariance_eq_zero_iff (data : List ℚ) :
    Real.sqrt ((listVariance data : ℚ) : ℝ) = 0 ↔ listVariance data = 0 := by
  rw [Real.sqrt_eq_zero']
  constructor
  · intro h
    have h0 : (0 : ℝ) ≤ ((listVariance data : ℚ) : ℝ) := by
      exact_mod_cast listVariance_nonneg data
    have heq : ((listVariance data : ℚ) : ℝ) = 0 := le_antisymm h h0
    exact_mod_cast heq
  · intro h
    rw [h]
    simp

theorem calculateZScore_of_degenerate (value : ℚ) (data : List ℚ)
    (h : data.isEmpty = true ∨ listVariance data = 0) : calculateZScore value data = 0 := by
  unfold calculateZScore
  by_cases he : data.isEmpty = true
  · rw [if_pos he]
  · rcases h with h | h
    · exact absurd h he
    · rw [if_neg he]
      dsimp only
      rw [if_pos ((sqrt_listVariance_eq_zero_iff data).mpr h)]

theorem calculateZScore_of_pos (value : ℚ) (data : List ℚ)
    (he : ¬ data.isEmpty = true) (hv : listVariance data ≠ 0) :
    calculateZScore value data =
      ((value - listMean data : ℚ) : ℝ) / Real.sqrt ((listVariance data : ℚ) : ℝ) := by
  unfold calculateZScore
  rw [if_neg he]
  dsimp only
  rw [if_neg (fun hc => hv ((sqrt_listVariance_eq_zero_iff data).mp hc))]
  push_cast
  ring

theorem zAbsGt_iff (value : ℚ) (data : List ℚ) (t : ℚ) :
    zAbsGt value data t = true ↔ ((t : ℚ) : ℝ) < |calculateZScore value data| := by
  unfold zAbsGt
  by_cases hdeg : data.isEmpty = true ∨ listVariance data = 0
  · rw [if_pos hdeg, calculateZScore_of_degenerate value data hdeg]
    rw [decide_eq_true_eq, abs_zero]
    exact_mod_cast Iff.rfl
  · rw [if_neg hdeg, decide_eq_true_eq]
    push_neg at hdeg
    obtain ⟨he, hv⟩ := hdeg
    have hvpos : 0 < listVariance data := lt_of_le_of_ne (listVariance_nonneg data) (Ne.symm hv)
    have hvposR : (0 : ℝ) < ((listVariance data : ℚ) : ℝ) := by exact_mod_cast hvpos
    have hs : 0 < Real.sqrt ((listVariance data : ℚ) : ℝ) := Real.sqrt_pos.mpr hvposR
    rw [calculateZScore_of_pos value data he hv, abs_div, abs_of_pos hs, lt_div_iff hs]
    by_cases ht : t < 0
    · have htR : ((t : ℚ) : ℝ) < 0 := by exact_mod_cast ht
      constructor
      · intro _
        calc ((t : ℚ) : ℝ) * Real.sqrt ((listVariance data : ℚ) : ℝ)
            < 0 := mul_neg_of_neg_of_pos htR hs
          _ ≤ |((value - listMean data : ℚ) : ℝ)| := abs_nonneg _
      · intro _
        exact Or.inl ht
    · have ht0 : 0 ≤ t := le_of_not_lt ht
      have htR : (0 : ℝ) ≤ ((t : ℚ) : ℝ) := by exact_mod_cast ht0
      have hts : 0 ≤ ((t : ℚ) : ℝ) * Real.sqrt ((listVariance data : ℚ) : ℝ) :=
        mul_nonneg htR (le_of_lt hs)
      have hsq : (((t : ℚ) : ℝ) * Real.sqrt ((listVariance data : ℚ) : ℝ)) ^ 2 =
          ((t ^ 2 * listVariance data : ℚ) : ℝ) := by
        rw [mul_pow, Real.sq_sqrt (le_of_lt hvposR)]
        push_cast
        ring
      constructor
      · intro hor
        rcases hor with hor | hor
        · exact absurd hor ht
        · have horR : (((t : ℚ) : ℝ) * Real.sqrt ((listVariance data : ℚ) : ℝ)) ^ 2 <
              |((value - listMean data : ℚ) : ℝ)| ^ 2 := by
            rw [hsq, sq_abs]
            push_cast
            exact_mod_cast hor
          by_contra hc
          push_neg at hc
          have := pow_le_pow_left (abs_nonneg _) hc 2
          linarith
      · intro hlt
        refine Or.inr ?_
        have h2 : (((t : ℚ) : ℝ) * Real.sqrt ((listVariance data : ℚ) : ℝ)) ^ 2 <
            |((value - listMean data : ℚ) : ℝ)| ^ 2 := pow_lt_pow_left hlt hts (by norm_num)
        rw [hsq, sq_abs] at h2
        have h2R : ((t ^ 2 * listVariance data : ℚ) : ℝ) <
            (((value - listMean data) ^ 2 : ℚ) : ℝ) := by
          push_cast at h2 ⊢
          linarith
        exact_mod_cast h2R

theorem zPos_iff (value : ℚ) (data : List ℚ) :
    zPos value data = true ↔ 0 < calculateZScore value data := by
  unfold zPos
  rw [decide_eq_true_eq]
  by_cases hdeg : data.isEmpty = true ∨ listVariance data = 0
  · rw [calculateZScore_of_degenerate value data hdeg]
    constructor
    · rintro ⟨hnd, _⟩
      exact absurd hdeg hnd
    · intro h
      exact absurd h (lt_irrefl 0)
  · push_neg at hdeg
    obtain ⟨he, hv⟩ := hdeg
    have hvpos : 0 < listVariance data := lt_of_le_of_ne (listVariance_nonneg data) (Ne.symm hv)
    have hvposR : (0 : ℝ) < ((listVariance data : ℚ) : ℝ) := by exact_mod_cast hvpos
    have hs : 0 < Real.sqrt ((listVariance data : ℚ) : ℝ) := Real.sqrt_pos.mpr hvposR
    rw [calculateZScore_of_pos value data he hv]
    constructor
    · rintro ⟨_, hlt⟩
      apply div_pos _ hs
      exact_mod_cast sub_pos.mpr hlt
    · intro hpos
      refine ⟨by push_neg; exact ⟨he, hv⟩, ?_⟩
      have hnum : (0 : ℝ) < ((value - listMean data : ℚ) : ℝ) := by
        by_contra hc
        push_neg at hc
        have : ((value - listMean data : ℚ) : ℝ) / Real.sqrt ((listVariance data : ℚ) : ℝ) ≤ 0 :=
          div_nonpos_of_nonpos_of_nonneg hc (le_of_lt hs)
        linarith
      have : (0 : ℚ) < value - listMean data := by exact_mod_cast hnum
      linarith

/-- Claim C9: calculateZScore is 0 for every population with zero variance (hence
zero standard deviation), including the empty one, and the z-score of the
population mean is 0 for every population. -/
theorem claim_C9 :
    (∀ (value : ℚ) (data : List ℚ), listVariance data = 0 → calculateZScore value data = 0) ∧
    (∀ data : List ℚ, calculateZScore (listMean data) data = 0) := by
  constructor
  · intro value data hv
    exact calculateZScore_of_degenerate value data (Or.inr hv)
  · intro data
    by_cases hdeg : data.isEmpty = true ∨ listVariance data = 0
    · exact calculateZScore_of_degenerate _ data hdeg
    · push_neg at hdeg
      rw [calculateZScore_of_pos _ data hdeg.1 hdeg.2]
      simp

/-- Claim C9 witness: the uniform population with value 5 twice has variance 0 and
z-score 0 at value 5. -/
theorem claim_C9_witness :
    listVariance [5, 5] = 0 ∧ calculateZScore 5 [5, 5] = 0 := by
  have hv : listVariance [5, 5] = 0 := by
    simp [listVariance, listMean]
  exact ⟨hv, claim_C9.1 5 [5, 5] hv⟩

/-- Claim C5: the turnout analyzer is pointwise the rule of the specification (a
rate above 100 is always high severity; otherwise an absolute z-score above 3 is
high when positive and medium when negative; otherwise nothing), a single
district at 110 percent turnout yields exactly one high-severity anomaly, and
the 70 and 65 percent pair yields none. -/
theorem claim_C5 :
    (∀ ds : List District, ds ≠ [] →
      detectTurnoutAnomalies ds = ds.filterMap (claimTurnoutRule ds)) ∧
    detectTurnoutAnomalies [turnout110] =
      [{ districtId := 1, districtName := some "District 1", type := .turnoutRate,
         severity := .high, turnoutRate := some 110 }] ∧
    detectTurnoutAnomalies [turnout70, turnout65] = [] := by
  refine ⟨?_, ?_, ?_⟩
  · intro ds _
    unfold detectTurnoutAnomalies
    dsimp only
    have hzip : ds.zip (ds.map (fun d => d.votes / d.registeredVoters * 100)) =
        ds.map (fun d => (d, d.votes / d.registeredVoters * 100)) := by
      have h := List.zip_map' id (fun d => d.votes / d.registeredVoters * 100) ds
      simpa using h
    rw [hzip, List.filterMap_map]
    refine List.filterMap_congr (fun d _ => ?_)
    simp only [Function.comp_apply, claimTurnoutRule]
    by_cases h100 : d.votes / d.registeredVoters * 100 > 100
    · rw [if_pos h100, if_pos h100]
    · rw [if_neg h100, if_neg h100]
      by_cases hz : (3 : ℝ) < |calculateZScore (d.votes / d.registeredVoters * 100)
          (ds.map (fun x => x.votes / x.registeredVoters * 100))|
      · have hzb : zAbsGt (d.votes / d.registeredVoters * 100)
            (ds.map (fun x => x.votes / x.registeredVoters * 100)) 3 = true := by
          rw [zAbsGt_iff]
          exact_mod_cast hz
        rw [if_pos hzb, if_pos hz]
        by_cases hp : 0 < calculateZScore (d.votes / d.registeredVoters * 100)
            (ds.map (fun x => x.votes / x.registeredVoters * 100))
        · rw [if_pos ((zPos_iff _ _).mpr hp), if_pos hp]
        · rw [if_neg (fun hb => hp ((zPos_iff _ _).mp hb)), if_neg hp]
      · have hzb : ¬ zAbsGt (d.votes / d.registeredVoters * 100)
            (ds.map (fun x => x.votes / x.registeredVoters * 100)) 3 = true :=
          fun hb => hz (by exact_mod_cast (zAbsGt_iff _ _ 3).mp hb)
        rw [if_neg hzb, if_neg hz]
  · simp [detectTurnoutAnomalies, turnout110]
    norm_num [List.filterMap_cons]
  · simp [detectTurnoutAnomalies, turnout70, turnout65, zAbsGt, listVariance, listMean]
    norm_num [List.filterMap_cons]

/-- Claim C5 witness: the pointwise characterization applied to the concrete
70 and 65 percent pair. -/
theorem claim_C5_witness :
    ([turnout70, turnout65] : List District) ≠ [] ∧
    detectTurnoutAnomalies [turnout70, turnout65] =
      [turnout70, turnout65].filterMap (claimTurnoutRule [turnout70, turnout65]) :=
  ⟨by simp, claim_C5.1 [turnout70, turnout65] (by simp)⟩

/-- Claim C6: over a non-empty district list with non-negative velocities, the
vote-rate analyzer is pointwise the rule of the specification: flag exactly the
districts strictly above the mean velocity whose percent deviation from the mean
exceeds 300, with severity high above 500 and medium otherwise; districts at or
below the mean are never flagged. -/
theorem claim_C6 (ds : List District) (hne : ds ≠ [])
    (hnn : ∀ d ∈ ds, 0 ≤ d.voteVelocity) :
    detectVoteRateAnomalies ds =
      ds.filterMap (claimVoteRateRule ((ds.map District.voteVelocity).sum / ds.length)) := by
  unfold detectVoteRateAnomalies
  dsimp only
  rw [List.length_map]
  have hA0 : 0 ≤ (ds.map District.voteVelocity).sum / (ds.length : ℚ) := by
    apply div_nonneg
    · apply List.sum_nonneg
      intro x hx
      rcases List.mem_map.mp hx with ⟨d, hd, hdx⟩
      rw [← hdx]
      exact hnn d hd
    · positivity
  refine List.filterMap_congr (fun d hd => ?_)
  unfold claimVoteRateRule
  dsimp only
  by_cases hA : 0 < (ds.map District.voteVelocity).sum / (ds.length : ℚ)
  · rw [if_pos hA]
    refine if_congr (by constructor <;> (rintro ⟨x, y⟩; exact ⟨y, x⟩)) rfl rfl
  · have hAz : (ds.map District.voteVelocity).sum / (ds.length : ℚ) = 0 :=
      le_antisymm (le_of_not_lt hA) hA0
    have hlenne : (ds.length : ℚ) ≠ 0 := by
      have : ds.length ≠ 0 := fun hc => hne (List.length_eq_zero.mp hc)
      exact_mod_cast this
    have hsum : (ds.map District.voteVelocity).sum = 0 := by
      rcases div_eq_zero_iff.mp hAz with h | h
      · exact h
      · exact absurd h hlenne
    have hvle : d.voteVelocity ≤ 0 := by
      have hmem : d.voteVelocity ∈ ds.map District.voteVelocity :=
        List.mem_map_of_mem District.voteVelocity hd
      have := List.single_le_sum (fun x hx => by
        rcases List.mem_map.mp hx with ⟨d2, hd2, hdx⟩
        rw [← hdx]
        exact hnn d2 hd2) _ hmem
      rw [hsum] at this
      exact this
    rw [if_neg hA, if_neg (by norm_num), if_neg (by
      rintro ⟨hlt, _⟩
      rw [hAz] at hlt
      exact absurd (lt_of_lt_of_le hlt hvle) (lt_irrefl 0))]

/-- Claim C6 witness: the characterization applied to five districts with
velocities 100, 1, 1, 1, 1 (mean 20.8, only the first district is flagged). -/
theorem claim_C6_witness :
    ([velocityDistrict 1 100, velocityDistrict 2 1, velocityDistrict 3 1,
        velocityDistrict 4 1, velocityDistrict 5 1] : List District) ≠ [] ∧
    detectVoteRateAnomalies [velocityDistrict 1 100, velocityDistrict 2 1, velocityDistrict 3 1,
        velocityDistrict 4 1, velocityDistrict 5 1] =
      [velocityDistrict 1 100, velocityDistrict 2 1, velocityDistrict 3 1,
        velocityDistrict 4 1, velocityDistrict 5 1].filterMap
        (claimVoteRateRule
          (([velocityDistrict 1 100, velocityDistrict 2 1, velocityDistrict 3 1,
              velocityDistrict 4 1, velocityDistrict 5 1].map District.voteVelocity).sum /
            ([velocityDistrict 1 100, velocityDistrict 2 1, velocityDistrict 3 1,
              velocityDistrict 4 1, velocityDistrict 5 1] : List District).length)) :=
  ⟨by simp, claim_C6 _ (by simp) (by
    intro d hd
    simp only [List.mem_cons, List.not_mem_nil, or_false] at hd
    rcases hd with h | h | h | h | h <;> (rw [h]; norm_num [velocityDistrict]))⟩

theorem calculateMovingAverage_early (data : List ℚ) (w i : ℕ) (hi : i < data.length)
    (hw : i + 1 < w) : (calculateMovingAverage data w).get? i = some none := by
  unfold calculateMovingAverage
  rw [List.get?_map, List.get?_range hi]
  simp [hw]

/-- Claim C8: the moving average is absent (null, not zero) at every index below
windowSize - 1, for every input, and the moving-average detector (window 5)
never flags such an index: every produced anomaly carries index at least 4. -/
theorem claim_C8 :
    (∀ (data : List ℚ) (w i : ℕ), i < data.length → i + 1 < w →
      (calculateMovingAverage data w).get? i = some none) ∧
    (∀ (data : List ChartDataPoint) (t : ℚ) (a : Anomaly),
      a ∈ detectMovingAverageAnomalies data t → 4 ≤ a.districtId) := by
  refine ⟨calculateMovingAverage_early, ?_⟩
  intro data t a ha
  unfold detectMovingAverageAnomalies at ha
  dsimp only at ha
  rcases List.mem_filterMap.mp ha with ⟨p, hp, hpa⟩
  obtain ⟨i, item⟩ := p
  have hi : i < data.length := by
    unfold withIdx at hp
    have hmem := List.of_mem_zip hp
    exact List.mem_range.mp hmem.1
  rcases hgd : (calculateMovingAverage (data.map ChartDataPoint.value) 5).getD i none
    with _ | avg
  · rw [hgd] at hpa
    exact absurd hpa (by simp)
  · have hi4 : 4 ≤ i := by
      by_contra hi4
      push_neg at hi4
      have hiv : i < (data.map ChartDataPoint.value).length := by simpa using hi
      have hget := calculateMovingAverage_early (data.map ChartDataPoint.value) 5 i hiv
        (by omega)
      rw [List.getD_eq_get?, hget] at hgd
      simp at hgd
    rw [hgd] at hpa
    split at hpa
    · exact absurd hpa (by simp)
    · split at hpa
      · injection hpa with h
        rw [← h]
        show (4 : ℤ) ≤ (i : ℤ)
        exact_mod_cast hi4
      · exact absurd hpa (by simp)

/-- Claim C8 witness: the moving average of a 3-point series with window 5 is
absent at index 0, and the one anomaly the detector flags on the spiking
10-point series sits at index 9. -/
theorem claim_C8_witness :
    (calculateMovingAverage [1, 2, 3] 5).get? 0 = some none ∧
    (4 : ℤ) ≤ ({ districtId := 9
                 districtName := none
                 type := .movingAverage
                 severity := .high
                 deviation := some 400
                 movingAverage := some 20 } : Anomaly).districtId := by
  constructor
  · exact claim_C8.1 [1, 2, 3] 5 0 (by norm_num) (by norm_num)
  · refine claim_C8.2 (historyChart histSpike) (3 / 2) _ ?_
    have hd : detectMovingAverageAnomalies (historyChart histSpike) (3 / 2) =
        [{ districtId := 9
           districtName := none
           type := .movingAverage
           severity := .high
           deviation := some 400
           movingAverage := some 20 }] := by
      simp [detectMovingAverageAnomalies, calculateMovingAverage, historyChart, histSpike,
        withIdx, jsSlice, List.getD, show List.range 10 = [0, 1, 2, 3, 4, 5, 6, 7, 8, 9] from rfl]
      norm_num [List.filterMap_cons]
    rw [hd]
    simp

theorem detectTurnoutAnomalies_type (ds : List District) (a : Anomaly)
    (ha : a ∈ detectTurnoutAnomalies ds) : a.type = AnomalyKind.turnoutRate := by
  unfold detectTurnoutAnomalies at ha
  dsimp only at ha
  rcases List.mem_filterMap.mp ha with ⟨p, _, hpa⟩
  split at hpa
  · injection hpa with h
    rw [← h]
  · split at hpa
    · injection hpa with h
      rw [← h]
    · exact absurd hpa (by simp)

theorem detectVoteRateAnomalies_type (ds : List District) (a : Anomaly)
    (ha : a ∈ detectVoteRateAnomalies ds) : a.type = AnomalyKind.voteRate := by
  unfold detectVoteRateAnomalies at ha
  dsimp only at ha
  rcases List.mem_filterMap.mp ha with ⟨d, _, hpa⟩
  split at hpa <;> split at hpa
  all_goals first
    | (injection hpa with h
       rw [← h])
    | exact absurd hpa (by simp)

/-- Claim C3 (amended): analyzeAllAnomalies aggregates only the turnout-rate and
vote-rate analyzers over the districts; it ignores the history argument entirely
and its output never contains z-score or moving-average anomalies. -/
theorem claim_C3_amended (ds : List District) (h1 h2 : List VoteHistoryEntry) :
    analyzeAllAnomalies ds h1 = analyzeAllAnomalies ds h2 ∧
    analyzeAllAnomalies ds h1 = detectTurnoutAnomalies ds ++ detectVoteRateAnomalies ds ∧
    ∀ a ∈ analyzeAllAnomalies ds h1,
      a.type = AnomalyKind.turnoutRate ∨ a.type = AnomalyKind.voteRate := by
  refine ⟨rfl, rfl, ?_⟩
  intro a ha
  rcases List.mem_append.mp ha with h | h
  · exact Or.inl (detectTurnoutAnomalies_type ds a h)
  · exact Or.inr (detectVoteRateAnomalies_type ds a h)

/-- Claim C3 (counterexample): with no districts and a history whose total-votes
series spikes, analyzeAllAnomalies returns nothing while the aggregation of all
four analyzers described by the specification returns the z-score and
moving-average anomalies of the spike, so analyzeAllAnomalies is not that
aggregation. -/
theorem claim_C3_counterexample :
    analyzeAllAnomalies [] histSpike = [] ∧
    specAnalyzeAllAnomalies [] histSpike ≠ [] ∧
    analyzeAllAnomalies [] histSpike ≠ specAnalyzeAllAnomalies [] histSpike := by
  have hz : detectZScoreAnomalies (historyChart histSpike) zScoreThreshold =
      [{ districtId := 9
         districtName := none
         type := .zScore
         severity := .medium }] := by
    simp [detectZScoreAnomalies, historyChart, histSpike, withIdx, zAbsGt, listVariance,
      listMean, zScoreThreshold, show List.range 10 = [0, 1, 2, 3, 4, 5, 6, 7, 8, 9] from rfl]
    norm_num [List.filterMap_cons]
  refine ⟨rfl, ?_, ?_⟩
  · intro hc
    unfold specAnalyzeAllAnomalies at hc
    rw [hz] at hc
    simp at hc
  · intro hc
    have hsp : specAnalyzeAllAnomalies [] histSpike = [] := hc.symm.trans rfl
    unfold specAnalyzeAllAnomalies at hsp
    rw [hz] at hsp
    simp at hsp

/-- Claim C3 witness: the amended aggregation theorem applied to the single
110-percent district and the spiking history. -/
theorem claim_C3_witness :
    analyzeAllAnomalies [turnout110] histSpike = analyzeAllAnomalies [turnout110] [] ∧
    (({ districtId := 1
        districtName := some "District 1"
        type := .turnoutRate
        severity := .high
        turnoutRate := some 110 } : Anomaly).type = AnomalyKind.turnoutRate ∨
      ({ districtId := 1
         districtName := some "District 1"
         type := .turnoutRate
         severity := .high
         turnoutRate := some 110 } : Anomaly).type = AnomalyKind.voteRate) := by
  refine ⟨(claim_C3_amended [turnout110] histSpike []).1, ?_⟩
  refine (claim_C3_amended [turnout110] histSpike []).2.2 _ ?_
  have h1 : detectTurnoutAnomalies [turnout110] =
      [{ districtId := 1
         districtName := some "District 1"
         type := .turnoutRate
         severity := .high
         turnoutRate := some 110 }] := by
    simp [detectTurnoutAnomalies, turnout110]
    norm_num [List.filterMap_cons]
  have h2 : detectVoteRateAnomalies [turnout110] = [] := by
    simp [detectVoteRateAnomalies, turnout110]
  have heq : analyzeAllAnomalies [turnout110] histSpike =
      [{ districtId := 1
         districtName := some "District 1"
         type := .turnoutRate
         severity := .high
         turnoutRate := some 110 }] := by
    show detectTurnoutAnomalies [turnout110] ++ detectVoteRateAnomalies [turnout110] = _
    rw [h1, h2, List.append_nil]
  rw [heq]
  simp

end Voting
